import Mathlib

/-!
Verification development for the YT-Research-Dashboard ingestion-and-metrics
core (server/yt.js). JavaScript values are embedded as follows: JSON objects
used as keyed maps become insertion-ordered association lists (JS objects
preserve insertion order for non-numeric string keys); nullable / possibly
undefined fields become Option; ISO-8601 UTC timestamp strings are compared
lexicographically, which coincides with the chronological order dayjs and
the JS string comparison operators give on such strings; network calls are
passed in as explicit parameters (page lists, lookup functions, fetch
results).
-/

/- ===== String primitives =====
Core String functions such as decidableLT, take, trim and startsWith are
iterator based and do not reduce in the kernel, so the embedding works on
the underlying character list. All data handled by the server (video ids,
ISO timestamps) is ASCII, where code-unit comparison as performed by the JS
engine coincides with the code-point comparison below. -/

/-- Strict lexicographic order on character lists, by code point. Models the
JS string comparison used by localeCompare-style comparators and the
relational operator on ISO timestamp strings. -/
def strLtAux : List Char → List Char → Bool
  | [], [] => false
  | [], _ :: _ => true
  | _ :: _, [] => false
  | a :: as, b :: bs =>
    if a.toNat < b.toNat then true
    else if b.toNat < a.toNat then false
    else strLtAux as bs

/-- Strict lexicographic order on strings. -/
def strLt (a b : String) : Bool := strLtAux a.data b.data

/-- Non-strict order on strings: a is less than or equal to b when b is not
strictly below a. This is the ascending-order test a comparator returning
localeCompare values induces. -/
def strLe (a b : String) : Bool := !(strLt b a)

/-- Models String.prototype.slice with start 0: the first n characters. -/
def strTake (s : String) (n : Nat) : String := ⟨s.data.take n⟩

/-- Whitespace test for the trim model (the inputs of interest are ASCII). -/
def isWsChar (c : Char) : Bool := c == ' ' || c == '\t' || c == '\n' || c == '\r'

/-- Models String.prototype.trim: strip whitespace from both ends. -/
def trimStr (s : String) : String :=
  ⟨((s.data.dropWhile isWsChar).reverse.dropWhile isWsChar).reverse⟩

/-- Models the regex replace of a single leading at-sign in
resolveToChannelId (yt.js line 112). -/
def stripAt (s : String) : String :=
  match s.data with
  | '@' :: rest => ⟨rest⟩
  | _ => s

/-- Transcribes the channel-id shape test of yt.js line 111: two fixed
leading characters UC followed by exactly 22 characters drawn from digits,
ASCII letters, underscore and hyphen. -/
def isCanonicalChannelId (s : String) : Bool :=
  match s.data with
  | 'U' :: 'C' :: rest =>
    rest.length == 22 && rest.all (fun c => c.isAlphanum || c == '_' || c == '-')
  | _ => false

/- ===== Order lemmas for the string comparisons ===== -/

theorem strLtAux_asymm : ∀ x y, strLtAux x y = true → strLtAux y x = false
  | [], [] => by simp [strLtAux]
  | [], _ :: _ => by simp [strLtAux]
  | _ :: _, [] => by simp [strLtAux]
  | a :: as, b :: bs => by
    simp only [strLtAux]
    by_cases h1 : a.toNat < b.toNat
    · intro _
      have h2 : ¬ b.toNat < a.toNat := by omega
      simp [h1, h2]
    · by_cases h2 : b.toNat < a.toNat
      · simp [h1, h2]
      · simp only [h1, h2, if_false]
        exact strLtAux_asymm as bs

theorem strLtAux_trans : ∀ x y z, strLtAux x y = true → strLtAux y z = true →
    strLtAux x z = true
  | [], _, _ :: _ => by simp [strLtAux]
  | [], [], [] => by simp [strLtAux]
  | [], _ :: _, [] => by simp [strLtAux]
  | _ :: _, [], _ => by simp [strLtAux]
  | _ :: _, _ :: _, [] => by simp [strLtAux]
  | a :: as, b :: bs, c :: cs => by
    simp only [strLtAux]
    by_cases hab : a.toNat < b.toNat
    · by_cases hbc : b.toNat < c.toNat
      · have : a.toNat < c.toNat := by omega
        simp [this]
      · by_cases hcb : c.toNat < b.toNat
        · simp [hbc, hcb]
        · have : a.toNat < c.toNat := by omega
          simp [this]
    · by_cases hba : b.toNat < a.toNat
      · simp [hab, hba]
      · by_cases hbc : b.toNat < c.toNat
        · have hac : a.toNat < c.toNat := by omega
          simp [hac]
        · by_cases hcb : c.toNat < b.toNat
          · simp [hbc, hcb]
          · have h1 : ¬ a.toNat < c.toNat := by omega
            have h2 : ¬ c.toNat < a.toNat := by omega
            simp only [hab, hba, hbc, hcb, h1, h2, if_false]
            exact strLtAux_trans as bs cs

theorem strLtAux_total (x y : List Char) :
    strLtAux x y = true ∨ strLtAux y x = true ∨ x = y := by
  induction x generalizing y with
  | nil =>
    cases y with
    | nil => simp [strLtAux]
    | cons b bs => simp [strLtAux]
  | cons a as ih =>
    cases y with
    | nil => simp [strLtAux]
    | cons b bs =>
      by_cases hab : a.toNat < b.toNat
      · left; simp [strLtAux, hab]
      · by_cases hba : b.toNat < a.toNat
        · right; left; simp [strLtAux, hba]
        · have hv : a = b := by
            have : a.toNat = b.toNat := by omega
            exact Char.eq_of_val_eq (UInt32.ext (by simpa [Char.toNat] using this))
          subst hv
          rcases ih bs with h | h | h
          · left; simp [strLtAux, h]
          · right; left; simp [strLtAux, h]
          · right; right; simp [h]

theorem strLe_total (a b : String) : strLe a b = true ∨ strLe b a = true := by
  by_cases h : strLt b a = true
  · right
    have := strLtAux_asymm b.data a.data h
    simp [strLe, strLt, this]
  · left
    simp only [strLe, Bool.not_eq_true'] at h ⊢
    simpa [strLt] using h

theorem strLe_trans {a b c : String} (h1 : strLe a b = true) (h2 : strLe b c = true) :
    strLe a c = true := by
  simp only [strLe, Bool.not_eq_true', strLt] at h1 h2 ⊢
  by_cases h : strLtAux c.data a.data = true
  · exfalso
    rcases strLtAux_total a.data b.data with hab | hba | heq
    · have := strLtAux_trans c.data a.data b.data h hab
      simp [this] at h2
    · simp [hba] at h1
    · rw [heq] at h
      simp [h] at h2
  · simpa using h

theorem strLe_refl (a : String) : strLe a a = true := by
  rcases strLe_total a a with h | h <;> exact h

/- ===== Video Feed Walker (yt.js lines 168-216, listNewVideoIds) ===== -/

/-- One playlist item as consumed by listNewVideoIds: the fields
contentDetails.videoId and contentDetails.videoPublishedAt, each possibly
absent in the API payload. -/
structure FeedItem where
  videoId : Option String
  videoPublishedAt : Option String
deriving DecidableEq

/-- One element of the walker output buffer: out.push with the id and
publish timestamp of the item (yt.js line 204). -/
structure OutItem where
  id : String
  publishedAt : Option String
deriving DecidableEq

/-- The options object of listNewVideoIds. -/
structure WalkArgs where
  sinceISO : Option String
  lastSeenVideoId : Option String
  backfill : Bool
deriving DecidableEq

/-- Line 175: cutoff is null unless sinceISO is truthy. Rendering through
new Date(...).toISOString() is treated as the identity, the callers passing
ISO strings already. -/
def cutoffOf : Option String → Option String
  | none => none
  | some s => if s == "" then none else some s

/-- Line 193: the incremental stop test. True when not in backfill mode, a
truthy lastSeenVideoId is configured, and the current id equals it. -/
def cursorHit (args : WalkArgs) (id : String) : Bool :=
  !args.backfill &&
    (match args.lastSeenVideoId with
     | some s => !(s == "") && id == s
     | none => false)

/-- Line 199: the date-cutoff stop test. True when a cutoff is set, the item
carries a truthy publish time, and that time is strictly before the cutoff. -/
def cutoffHit (cutoff : Option String) (pub : Option String) : Bool :=
  match cutoff, pub with
  | some c, some p => !(p == "") && strLt p c
  | _, _ => false

/-- The per-item loop body of listNewVideoIds over one API page (lines
187-209): skip items without a truthy videoId, stop without pushing on a
cursor match or a date cutoff, otherwise push and stop once the buffer has
reached maxNew elements (the parameter standing for the module-level
YT_FETCH_MAX_NEW). Returns the buffer and the stop flag. -/
def walkPage (args : WalkArgs) (maxNew : Nat) :
    List FeedItem → List OutItem → List OutItem × Bool
  | [], out => (out, false)
  | it :: rest, out =>
    match it.videoId with
    | none => walkPage args maxNew rest out
    | some id =>
      if id == "" then walkPage args maxNew rest out
      else if cursorHit args id then (out, true)
      else if cutoffHit (cutoffOf args.sinceISO) it.videoPublishedAt then (out, true)
      else
        let out2 := out ++ [⟨id, it.videoPublishedAt⟩]
        if maxNew ≤ out2.length then (out2, true)
        else walkPage args maxNew rest out2

/-- The page loop of listNewVideoIds (lines 177-213): process pages in the
order the API serves them, stopping early when the inner loop raised the
stop flag; the page list models the sequence of pages reachable through
nextPageToken. -/
def walkPages (args : WalkArgs) (maxNew : Nat) :
    List (List FeedItem) → List OutItem → List OutItem
  | [], out => out
  | page :: rest, out =>
    match walkPage args maxNew page out with
    | (out2, true) => out2
    | (out2, false) => walkPages args maxNew rest out2

/-- listNewVideoIds (lines 168-216): walk the feed newest-first and return
the buffer reversed, oldest-first. -/
def listNewVideoIds (pages : List (List FeedItem)) (args : WalkArgs)
    (maxNew : Nat) : List OutItem :=
  (walkPages args maxNew pages []).reverse

/-- Proof vehicle: the same walk over the concatenation of all pages. The
page boundaries have no observable effect, see walkPages_eq_walkFlat. -/
def walkFlat (args : WalkArgs) (maxNew : Nat) :
    List FeedItem → List OutItem → List OutItem
  | [], out => out
  | it :: rest, out =>
    match it.videoId with
    | none => walkFlat args maxNew rest out
    | some id =>
      if id == "" then walkFlat args maxNew rest out
      else if cursorHit args id then out
      else if cutoffHit (cutoffOf args.sinceISO) it.videoPublishedAt then out
      else
        let out2 := out ++ [⟨id, it.videoPublishedAt⟩]
        if maxNew ≤ out2.length then out2
        else walkFlat args maxNew rest out2

theorem walkFlat_append (args : WalkArgs) (maxNew : Nat) :
    ∀ (page K : List FeedItem) (out : List OutItem),
      walkFlat args maxNew (page ++ K) out =
        (match walkPage args maxNew page out with
         | (out2, true) => out2
         | (out2, false) => walkFlat args maxNew K out2)
  | [], _, _ => by simp [walkPage]
  | it :: rest, K, out => by
    simp only [List.cons_append, walkFlat, walkPage]
    cases hid : it.videoId with
    | none => exact walkFlat_append args maxNew rest K out
    | some id =>
      by_cases h1 : (id == "") = true
      · simp only [h1, if_true]
        exact walkFlat_append args maxNew rest K out
      · simp only [Bool.not_eq_true] at h1
        simp only [h1, Bool.false_eq_true, if_false]
        by_cases h2 : cursorHit args id = true
        · simp [h2]
        · simp only [Bool.not_eq_true] at h2
          simp only [h2, Bool.false_eq_true, if_false]
          by_cases h3 : cutoffHit (cutoffOf args.sinceISO) it.videoPublishedAt = true
          · simp [h3]
          · simp only [Bool.not_eq_true] at h3
            simp only [h3, Bool.false_eq_true, if_false]
            by_cases h4 : maxNew ≤ out.length + 1
            · simp [h4]
            · simp only [List.length_append, List.length_cons, List.length_nil,
                Nat.zero_add, h4, if_false]
              exact walkFlat_append args maxNew rest K _

theorem walkPages_eq_walkFlat (args : WalkArgs) (maxNew : Nat) :
    ∀ (pages : List (List FeedItem)) (out : List OutItem),
      walkPages args maxNew pages out = walkFlat args maxNew pages.flatten out
  | [], out => by simp [walkPages, walkFlat]
  | page :: rest, out => by
    rw [List.flatten_cons, walkFlat_append args maxNew page rest.flatten out]
    simp only [walkPages]
    cases h : walkPage args maxNew page out with
    | mk out2 stop =>
      cases stop with
      | true => rfl
      | false => exact walkPages_eq_walkFlat args maxNew rest out2

/- ===== Detail Fetcher (yt.js lines 44-48 and 218-242) ===== -/

/-- Line 48: the module-level batch size, Math.max(1, Math.min(50, RAW_BATCH)),
clamping the configured YT_VIDEOS_BATCH environment number to the band 1..50. -/
def YT_VIDEOS_BATCH (rawBatch : Int) : Nat := (max 1 (min 50 rawBatch)).toNat

/-- The slicing loop of fetchVideoDetails (line 220-221): for i from 0 in
steps of b, the slice ids.slice(i, i + b). For the reachable batch sizes
b ≥ 1 the equation list.drop b (x :: xs) = xs.drop (b - 1) used below is
exact. -/
def sliceBatches (b : Nat) : List String → List (List String)
  | [] => []
  | x :: xs => (x :: xs).take b :: sliceBatches b (xs.drop (b - 1))
termination_by l => l.length
decreasing_by
  simp only [List.length_drop, List.length_cons]
  omega

/- ===== Data model (yt.js store layout, section 3 of the spec) ===== -/

/-- One video record as built by fetchVideoDetails (lines 227-238) and by
the hydration loop of the metrics-by-query route (lines 566-577). -/
structure VideoRecord where
  videoId : String
  title : String
  description : String
  publishedAt : String
  channelId : Option String
  channelTitle : Option String
  duration : Option String
  views : Nat
  likes : Nat
  comments : Nat
deriving DecidableEq

/-- Channel metadata as built by fetchChannelMeta (lines 126-148); the
thumbnails payload is opaque to every claim and is omitted. -/
structure ChannelMeta where
  channelId : String
  title : Option String
  description : Option String
  subscriberCount : Nat
  videoCount : Nat
  viewCount : Nat
  uploadsId : Option String
  fetchedAt : String
deriving DecidableEq

/-- fetchVideoDetails (lines 218-242): one upstream videos.list call per
batch of at most YT_VIDEOS_BATCH ids, concatenating the rows built from the
responses. The parameter api stands for the youtube.videos.list call of
lines 222-225 together with the row construction of lines 226-239. -/
def fetchVideoDetailsRows (api : List String → List VideoRecord) (b : Nat)
    (ids : List String) : List VideoRecord :=
  ((sliceBatches b ids).map api).flatten

/-- Per-channel state as persisted in the store: the videos map keyed by
videoId, the incremental cursor pair, and the cached meta. -/
structure ChannelState where
  videos : List (String × VideoRecord)
  lastSeenVideoId : Option String
  lastPublishedAt : Option String
  meta : Option ChannelMeta
deriving DecidableEq

/-- The whole persisted document: channels keyed by channel id (loadDB
initialises it to an empty channels object, lines 69-79). -/
structure Store where
  channels : List (String × ChannelState)
deriving DecidableEq

/-- Property lookup on a JS object used as a map. -/
def lookupA {α : Type} : List (String × α) → String → Option α
  | [], _ => none
  | (k2, v) :: rest, k => if k2 == k then some v else lookupA rest k

/-- Property assignment on a JS object used as a map: overwrite in place
when the key exists, append otherwise (JS objects keep insertion order). -/
def insertA {α : Type} : List (String × α) → String → α → List (String × α)
  | [], k, v => [(k, v)]
  | (k2, v2) :: rest, k, v =>
    if k2 == k then (k, v) :: rest else (k2, v2) :: insertA rest k v

/-- Line 464: the fresh channel object { videos: {}, lastSeenVideoId: null,
lastPublishedAt: null } used when the store has no entry yet. -/
def emptyChannelState : ChannelState :=
  { videos := [], lastSeenVideoId := none, lastPublishedAt := none, meta := none }

/- ===== Metrics Engine (yt.js lines 247-263 and 581-590) ===== -/

/-- The filter-and-sort pipeline shared by makeMetricsFromChannel (lines
252-254) and the metrics-by-query route (lines 582-584): keep rows whose
publishedAt is strictly after the cutoff (dayjs isAfter), then sort
ascending by publishedAt with a stable sort, as the JS localeCompare
comparator does. -/
def rowFilterSort (rows : List VideoRecord) (cutoff : String) : List VideoRecord :=
  List.insertionSort (fun a b => strLe a.publishedAt b.publishedAt = true)
    (rows.filter (fun v => strLt cutoff v.publishedAt))

/-- The body of the byDay bucketing loop (lines 257-260 and 585-588):
byDay[d] = (byDay[d] || 0) + 1 for the UTC calendar day d, the first ten
characters of publishedAt. -/
def bumpDay (m : List (String × Nat)) (v : VideoRecord) : List (String × Nat) :=
  let d := strTake v.publishedAt 10
  insertA m d ((lookupA m d).getD 0 + 1)

/-- The byDay bucketing loop (lines 256-260 and 585-588): count rows by the
UTC calendar day of publishedAt. -/
def buildByDay (rows : List VideoRecord) : List (String × Nat) :=
  rows.foldl bumpDay []

/-- The top selection (lines 261 and 589): a stable descending sort by views
of a copy of the sorted rows, then the first ten. -/
def topByViews (rows : List VideoRecord) : List VideoRecord :=
  (List.insertionSort (fun a b => b.views ≤ a.views) rows).take 10

/-- The result object of makeMetricsFromChannel and of the
metrics-by-handle route. -/
structure Metrics where
  byDay : List (String × Nat)
  rows : List VideoRecord
  top : List VideoRecord
  total : Nat
deriving DecidableEq

/-- makeMetricsFromChannel (lines 247-263). The dayjs expression
dayjs().subtract(days, day).startOf(day) of line 251 is passed in
pre-rendered as the ISO string cutoff; dayjs comparisons on ISO strings
coincide with the lexicographic order strLt. -/
def makeMetricsFromChannel (db : Store) (channelId : String) (cutoff : String) : Metrics :=
  match lookupA db.channels channelId with
  | none => { byDay := [], rows := [], top := [], total := 0 }
  | some ch =>
    let rows := rowFilterSort (ch.videos.map (fun p => p.2)) cutoff
    { byDay := buildByDay rows, rows := rows, top := topByViews rows,
      total := rows.length }

/-- The metrics-by-handle route (lines 503-517) once a channel id is known:
loadDB, compute, respond; the store is returned unchanged because the route
never calls saveDB. -/
def metricsByHandleRoute (db : Store) (channelId : String) (cutoff : String) :
    Metrics × Store :=
  (makeMetricsFromChannel db channelId cutoff, db)

/-- The response object of the metrics-by-query route. -/
structure QueryMetrics where
  query : Option String
  byDay : List (String × Nat)
  rows : List VideoRecord
  top : List VideoRecord
  total : Nat
deriving DecidableEq

/-- The tail of the metrics-by-query route (lines 520-594) after the search
and hydration loops produced the row list: the empty-query early return of
line 524, then the same filter, sort, bucket and top pipeline applied to
the hydrated rows against the publishedAfter bound of line 527, and the
response object of line 590. -/
def metricsByQuery (q : String) (rows : List VideoRecord)
    (publishedAfter : String) : QueryMetrics :=
  if q == "" then { query := none, byDay := [], rows := [], top := [], total := 0 }
  else
    let filtered := rowFilterSort rows publishedAfter
    { query := some q, byDay := buildByDay filtered, rows := filtered,
      top := topByViews filtered, total := filtered.length }

/-- The property names of the object literal passed to res.json on line 590
of the metrics-by-query route, in source order. -/
def metricsByQueryResponseKeys : List String :=
  ["query", "byDay", "rows", "top", "total"]

/-- Follows the words of spec section 4.6 for the missing aggregation: group
the filtered rows by channelTitle (falling back to channelId, then to the
literal unknown), summing a count and the views per group, sort descending
by count, keep the first five. Stated only to compare the spec against the
code, which computes no such field in the current route. -/
def specTopChannels (rows : List VideoRecord) : List (String × Nat × Nat) :=
  let grouped := rows.foldl
    (fun m v =>
      let key := (v.channelTitle.getD ((v.channelId).getD "unknown"))
      let cur := (lookupA m key).getD (0, 0)
      insertA m key (cur.1 + 1, cur.2 + v.views))
    []
  (List.insertionSort (fun a b => (b.2.1 ≤ a.2.1 : Prop)) grouped).take 5

/- ===== Channel Resolver (yt.js lines 110-125) ===== -/

/-- resolveToChannelId (lines 110-125). The parameter search stands for the
youtube.search.list channel search of lines 113-118 together with the id
extraction of lines 119-122, returning the extracted channel id, which may
be null. The second component of the result counts how many times the
search capability was invoked. -/
def resolveToChannelId (handleOrId : String) (search : String → Option String) :
    Except String String × Nat :=
  if isCanonicalChannelId handleOrId then (Except.ok handleOrId, 0)
  else
    let q := trimStr (stripAt handleOrId)
    match search q with
    | some id =>
      if id == "" then (Except.error "cannot resolve channelId", 1)
      else (Except.ok id, 1)
    | none => (Except.error "cannot resolve channelId", 1)

/- ===== Insight provider selection and fallback (yt.js lines 278-419) ===== -/

/-- The two LLM providers of pickProvider. -/
inductive Provider
  | gemini
  | openai
deriving DecidableEq

/-- pickProvider (lines 278-284): the LLM_PROVIDER environment value wins;
otherwise gemini is chosen exactly when the OpenAI key is absent and a
Gemini key is present. -/
def pickProvider (llmProvider openaiKey geminiKey : String) : Provider :=
  if llmProvider == "gemini" then Provider.gemini
  else if llmProvider == "openai" then Provider.openai
  else if (openaiKey == "") && !(geminiKey == "") then Provider.gemini
  else Provider.openai

/-- The observable outcome of buildInsightText: the returned text or the
error that escaped, plus how many times each provider was called. -/
structure InsightOut where
  result : Except String String
  geminiCalls : Nat
  openaiCalls : Nat

/-- buildInsightText (lines 401-419): try the wanted provider; on failure
fall back once to the other provider, whose outcome, success or failure, is
returned to the caller. The parameters are the outcomes the two provider
calls would produce on this sample. -/
def buildInsightText (want : Provider)
    (geminiResult openaiResult : Except String String) : InsightOut :=
  match want with
  | Provider.gemini =>
    match geminiResult with
    | Except.ok t => { result := Except.ok t, geminiCalls := 1, openaiCalls := 0 }
    | Except.error _ => { result := openaiResult, geminiCalls := 1, openaiCalls := 1 }
  | Provider.openai =>
    match openaiResult with
    | Except.ok t => { result := Except.ok t, geminiCalls := 0, openaiCalls := 1 }
    | Except.error _ => { result := geminiResult, geminiCalls := 1, openaiCalls := 1 }

/- ===== Routes that write the store (yt.js lines 426-500) ===== -/

/-- The store-updating tail of the resolve route (lines 426-445) once the
channel id is resolved: serve the cached meta when present and fresher than
24 hours (the dayjs freshness test of line 434 is passed in as the oracle
freshWithin24h), else the freshly fetched meta; ensure the channel object
exists; assign meta; save. -/
def resolveRoute (db : Store) (channelId : String)
    (freshWithin24h : ChannelMeta → Bool) (fetched : ChannelMeta) :
    Store × ChannelMeta :=
  let cached := (lookupA db.channels channelId).bind (fun ch => ch.meta)
  let meta :=
    match cached with
    | some m => if freshWithin24h m then m else fetched
    | none => fetched
  let ch := (lookupA db.channels channelId).getD emptyChannelState
  let ch2 := { ch with meta := some meta }
  ({ channels := insertA db.channels channelId ch2 }, meta)

/-- The observable outcome of the ingest route: the store after the request,
whether saveDB ran, and the added count of the response. -/
structure IngestOut where
  store : Store
  saved : Bool
  added : Nat
deriving DecidableEq

/-- The ingest route (lines 453-500) after the channel id and the uploads
playlist id are known: load the channel state or initialise it (line 464),
walk the feed with the stored cursor (lines 466-470), return added 0
without touching the store when no candidate came back (lines 472-475),
hydrate (line 477), merge into the videos map keyed by videoId (line 478),
advance the cursor pair to the newest walked candidate only in incremental
mode (lines 480-485), opportunistically fetch missing meta swallowing any
failure (lines 487-491), store the channel and save (lines 493-494). The
feed pages stand for the playlistItems capability and api for the
videos.list capability. -/
def ingest (db : Store) (channelId : String) (feed : List (List FeedItem))
    (since : Option String) (backfill : Bool)
    (api : List String → List VideoRecord) (batch : Nat) (maxNew : Nat)
    (metaFetch : Except String ChannelMeta) : IngestOut :=
  let ch := (lookupA db.channels channelId).getD emptyChannelState
  let newList := listNewVideoIds feed
    { sinceISO := since, lastSeenVideoId := ch.lastSeenVideoId, backfill := backfill }
    maxNew
  let ids := newList.map (fun x => x.id)
  if ids.length == 0 then
    { store := db, saved := false, added := 0 }
  else
    let details := fetchVideoDetailsRows api batch ids
    let ch2 := { ch with
      videos := details.foldl (fun m (v : VideoRecord) => insertA m v.videoId v) ch.videos }
    let ch3 :=
      if backfill then ch2
      else
        match newList.getLast? with
        | some newest =>
          { ch2 with
            lastSeenVideoId :=
              if newest.id == "" then ch2.lastSeenVideoId else some newest.id,
            lastPublishedAt :=
              match newest.publishedAt with
              | some p => if p == "" then ch2.lastPublishedAt else some p
              | none => ch2.lastPublishedAt }
        | none => ch2
    let ch4 :=
      if ch3.meta.isNone then
        { ch3 with meta := match metaFetch with | Except.ok m => some m | Except.error _ => none }
      else ch3
    { store := { channels := insertA db.channels channelId ch4 },
      saved := true, added := details.length }

/-- The cursor pair of a channel as observed through the store, the absent
channel reading as the initial null pair. -/
def cursorOf (db : Store) (channelId : String) : Option String × Option String :=
  let ch := (lookupA db.channels channelId).getD emptyChannelState
  (ch.lastSeenVideoId, ch.lastPublishedAt)

/- ===== Walker lemmas ===== -/

/-- An item the per-item loop pushes rather than skips or stops on: a truthy
videoId that is no cursor hit and no cutoff hit. -/
def pushableB (args : WalkArgs) (it : FeedItem) : Bool :=
  match it.videoId with
  | some id =>
    !(id == "") && !(cursorHit args id) &&
      !(cutoffHit (cutoffOf args.sinceISO) it.videoPublishedAt)
  | none => false

/-- The buffer element the walker pushes for a feed item. -/
def mkOut (it : FeedItem) : OutItem :=
  { id := (it.videoId).getD "", publishedAt := it.videoPublishedAt }

theorem pushableB_iff (args : WalkArgs) (it : FeedItem) :
    pushableB args it = true ↔
      ∃ id, it.videoId = some id ∧ (id == "") = false ∧ cursorHit args id = false ∧
        cutoffHit (cutoffOf args.sinceISO) it.videoPublishedAt = false := by
  cases hid : it.videoId with
  | none => simp [pushableB, hid]
  | some id =>
    simp only [pushableB, hid, Bool.and_eq_true, Bool.not_eq_true']
    constructor
    · rintro ⟨⟨h1, h2⟩, h3⟩
      exact ⟨id, rfl, h1, h2, h3⟩
    · rintro ⟨id2, hid2, h1, h2, h3⟩
      cases hid2
      exact ⟨⟨h1, h2⟩, h3⟩

theorem walkFlat_acc (args : WalkArgs) (maxNew : Nat) :
    ∀ (L : List FeedItem) (out : List OutItem),
      ∃ t, walkFlat args maxNew L out = out ++ t
  | [], out => ⟨[], by simp [walkFlat]⟩
  | it :: rest, out => by
    simp only [walkFlat]
    cases hid : it.videoId with
    | none => exact walkFlat_acc args maxNew rest out
    | some id =>
      by_cases h1 : (id == "") = true
      · simp only [h1, if_true]
        exact walkFlat_acc args maxNew rest out
      · simp only [Bool.not_eq_true] at h1
        simp only [h1, Bool.false_eq_true, if_false]
        by_cases h2 : cursorHit args id = true
        · exact ⟨[], by simp [h2]⟩
        · simp only [Bool.not_eq_true] at h2
          simp only [h2, Bool.false_eq_true, if_false]
          by_cases h3 : cutoffHit (cutoffOf args.sinceISO) it.videoPublishedAt = true
          · exact ⟨[], by simp [h3]⟩
          · simp only [Bool.not_eq_true] at h3
            simp only [h3, Bool.false_eq_true, if_false]
            by_cases h4 : maxNew ≤ out.length + 1
            · refine ⟨[⟨id, it.videoPublishedAt⟩], ?_⟩
              simp [h4]
            · simp only [List.length_append, List.length_cons, List.length_nil,
                Nat.zero_add, h4, if_false]
              obtain ⟨t, ht⟩ :=
                walkFlat_acc args maxNew rest (out ++ [⟨id, it.videoPublishedAt⟩])
              exact ⟨⟨id, it.videoPublishedAt⟩ :: t, by rw [ht]; simp⟩

theorem cursorHit_ne_empty (args : WalkArgs) (id : String)
    (h : cursorHit args id = true) : (id == "") = false := by
  cases hl : args.lastSeenVideoId with
  | none => simp [cursorHit, hl] at h
  | some s =>
    simp only [cursorHit, hl, Bool.and_eq_true, Bool.not_eq_true'] at h
    obtain ⟨-, h1, h2⟩ := h
    have hs : id = s := by simpa using h2
    subst hs
    exact h1

theorem walkFlat_step_push (args : WalkArgs) (maxNew : Nat) (it : FeedItem)
    (rest : List FeedItem) (out : List OutItem) (id : String)
    (hid : it.videoId = some id) (hne : (id == "") = false)
    (hnc : cursorHit args id = false)
    (hnk : cutoffHit (cutoffOf args.sinceISO) it.videoPublishedAt = false) :
    walkFlat args maxNew (it :: rest) out =
      if maxNew ≤ out.length + 1 then out ++ [⟨id, it.videoPublishedAt⟩]
      else walkFlat args maxNew rest (out ++ [⟨id, it.videoPublishedAt⟩]) := by
  simp [walkFlat, hid, hne, hnc, hnk]

theorem walkFlat_step_stop (args : WalkArgs) (maxNew : Nat) (it : FeedItem)
    (rest : List FeedItem) (out : List OutItem) (id : String)
    (hid : it.videoId = some id) (hc : cursorHit args id = true) :
    walkFlat args maxNew (it :: rest) out = out := by
  have hne := cursorHit_ne_empty args id hc
  simp [walkFlat, hid, hne, hc]

theorem walkFlat_push_prefix (args : WalkArgs) (maxNew : Nat) :
    ∀ (P : List FeedItem) (out : List OutItem) (x : FeedItem)
      (rest : List FeedItem) (c : String),
      (∀ it ∈ P, pushableB args it = true) →
      out.length + P.length ≤ maxNew →
      x.videoId = some c → cursorHit args c = true →
      walkFlat args maxNew (P ++ x :: rest) out = out ++ P.map mkOut
  | [], out, x, rest, c, _, _, hx, hcur => by
    rw [List.nil_append, walkFlat_step_stop args maxNew x rest out c hx hcur]
    simp
  | it :: P, out, x, rest, c, hP, hlen, hx, hcur => by
    obtain ⟨id, hid, hne, hnc, hnk⟩ :=
      (pushableB_iff args it).mp (hP it (List.mem_cons_self it P))
    rw [List.cons_append,
      walkFlat_step_push args maxNew it (P ++ x :: rest) out id hid hne hnc hnk]
    by_cases hcap : maxNew ≤ out.length + 1
    · have hP0 : P.length = 0 := by
        simp only [List.length_cons] at hlen
        omega
      have : P = [] := List.length_eq_zero.mp hP0
      subst this
      simp [hcap, mkOut, hid]
    · simp only [hcap, if_false]
      have ih := walkFlat_push_prefix args maxNew P
        (out ++ [⟨id, it.videoPublishedAt⟩]) x rest c
        (fun j hj => hP j (List.mem_cons_of_mem it hj))
        (by simp only [List.length_append, List.length_cons, List.length_nil,
              List.length_cons] at hlen ⊢; omega)
        hx hcur
      rw [ih]
      simp [mkOut, hid]

theorem walkFlat_cap (args : WalkArgs) (maxNew : Nat) :
    ∀ (L : List FeedItem) (out : List OutItem),
      (∀ it ∈ L, pushableB args it = true) →
      out.length < maxNew →
      maxNew ≤ out.length + L.length →
      walkFlat args maxNew L out = out ++ ((L.take (maxNew - out.length)).map mkOut)
  | [], out, _, h1, h2 => by
    simp only [List.length_nil, Nat.add_zero] at h2
    omega
  | it :: L, out, hP, h1, h2 => by
    obtain ⟨id, hid, hne, hnc, hnk⟩ :=
      (pushableB_iff args it).mp (hP it (List.mem_cons_self it L))
    rw [walkFlat_step_push args maxNew it L out id hid hne hnc hnk]
    by_cases hcap : maxNew ≤ out.length + 1
    · have hone : maxNew - out.length = 1 := by omega
      simp [hcap, hone, mkOut, hid]
    · simp only [hcap, if_false]
      have ih := walkFlat_cap args maxNew L (out ++ [⟨id, it.videoPublishedAt⟩])
        (fun j hj => hP j (List.mem_cons_of_mem it hj))
        (by simp; omega)
        (by simp only [List.length_append, List.length_cons, List.length_nil,
              Nat.zero_add] at h2 ⊢; omega)
      rw [ih]
      have hsucc : maxNew - out.length = (maxNew - (out.length + 1)) + 1 := by omega
      rw [hsucc]
      simp [List.take_cons, mkOut, hid]

/-- The id of the first item of a feed slice that carries a truthy videoId:
the first item the per-item loop does not skip. -/
def firstTruthyId : List FeedItem → Option String
  | [] => none
  | it :: rest =>
    match it.videoId with
    | none => firstTruthyId rest
    | some id => if id == "" then firstTruthyId rest else some id

theorem firstTruthyId_ne_empty :
    ∀ (L : List FeedItem) (c : String), firstTruthyId L = some c → (c == "") = false
  | [], c => by simp [firstTruthyId]
  | it :: rest, c => by
    simp only [firstTruthyId]
    cases hid : it.videoId with
    | none => exact firstTruthyId_ne_empty rest c
    | some id =>
      by_cases h1 : (id == "") = true
      · simp only [h1, if_true]
        exact firstTruthyId_ne_empty rest c
      · simp only [Bool.not_eq_true] at h1
        simp only [h1, Bool.false_eq_true, if_false]
        intro h
        cases h
        exact h1

theorem walkFlat_cursor_first (args : WalkArgs) (maxNew : Nat) :
    ∀ (L : List FeedItem) (out : List OutItem) (c : String),
      firstTruthyId L = some c → cursorHit args c = true →
      walkFlat args maxNew L out = out
  | [], out, c, hf, _ => by simp [firstTruthyId] at hf
  | it :: rest, out, c, hf, hc => by
    simp only [firstTruthyId] at hf
    simp only [walkFlat]
    cases hid : it.videoId with
    | none =>
      rw [hid] at hf
      exact walkFlat_cursor_first args maxNew rest out c hf hc
    | some id =>
      rw [hid] at hf
      by_cases h1 : (id == "") = true
      · simp only [h1, if_true] at hf ⊢
        exact walkFlat_cursor_first args maxNew rest out c hf hc
      · simp only [Bool.not_eq_true] at h1
        simp only [h1, Bool.false_eq_true, if_false] at hf ⊢
        cases hf
        simp [hc]

theorem walkFlat_head (args : WalkArgs) (maxNew : Nat) :
    ∀ (L : List FeedItem), walkFlat args maxNew L [] ≠ [] →
      ∃ c pub, firstTruthyId L = some c ∧
        (walkFlat args maxNew L []).head? = some ⟨c, pub⟩
  | [], h => absurd rfl h
  | it :: rest, h => by
    simp only [walkFlat, firstTruthyId] at h ⊢
    cases hid : it.videoId with
    | none =>
      rw [hid] at h
      exact walkFlat_head args maxNew rest h
    | some id =>
      rw [hid] at h
      by_cases h1 : (id == "") = true
      · simp only [h1, if_true] at h ⊢
        exact walkFlat_head args maxNew rest h
      · simp only [Bool.not_eq_true] at h1
        simp only [h1, Bool.false_eq_true, if_false] at h ⊢
        by_cases h2 : cursorHit args id = true
        · simp [h2] at h
        · simp only [Bool.not_eq_true] at h2
          simp only [h2, Bool.false_eq_true, if_false] at h ⊢
          by_cases h3 : cutoffHit (cutoffOf args.sinceISO) it.videoPublishedAt = true
          · simp [h3] at h
          · simp only [Bool.not_eq_true] at h3
            simp only [h3, Bool.false_eq_true, if_false] at h ⊢
            refine ⟨id, it.videoPublishedAt, rfl, ?_⟩
            by_cases h4 : maxNew ≤ 0 + 1
            · simp [h4]
            · simp only [List.nil_append, List.length_cons, List.length_nil, h4, if_false]
              obtain ⟨t, ht⟩ := walkFlat_acc args maxNew rest [⟨id, it.videoPublishedAt⟩]
              rw [ht]
              simp

/- ===== Association list lemmas ===== -/

theorem lookupA_insertA {α : Type} (m : List (String × α)) (k k2 : String) (v : α) :
    lookupA (insertA m k v) k2 = if k = k2 then some v else lookupA m k2 := by
  induction m with
  | nil =>
    by_cases h : k = k2 <;> simp [insertA, lookupA, h]
  | cons p rest ih =>
    obtain ⟨k3, v3⟩ := p
    by_cases h3 : k3 = k
    · subst h3
      by_cases h : k3 = k2 <;> simp [insertA, lookupA, h]
    · have hb3 : (k3 == k) = false := by simpa using h3
      by_cases h32 : k3 = k2
      · subst h32
        have hk : ¬ k = k3 := fun he => h3 he.symm
        simp [insertA, lookupA, hb3, hk]
      · have hb32 : (k3 == k2) = false := by simpa using h32
        simp only [insertA, hb3, Bool.false_eq_true, if_false, lookupA, hb32]
        exact ih

theorem lookupA_insertA_self {α : Type} (m : List (String × α)) (k : String) (v : α) :
    lookupA (insertA m k v) k = some v := by
  simp [lookupA_insertA]

/- ===== Day bucket lemmas ===== -/

theorem bumpDay_fold_count (d : String) :
    ∀ (rows : List VideoRecord) (m : List (String × Nat)),
      (lookupA (rows.foldl bumpDay m) d).getD 0 =
        (lookupA m d).getD 0 +
          (rows.filter (fun v => strTake v.publishedAt 10 == d)).length
  | [], m => by simp
  | v :: rows, m => by
    rw [List.foldl_cons, bumpDay_fold_count d rows (bumpDay m v)]
    by_cases hd : strTake v.publishedAt 10 = d
    · have hb : (strTake v.publishedAt 10 == d) = true := by simpa using hd
      simp only [bumpDay, List.filter_cons, hb, if_true, List.length_cons]
      rw [hd, lookupA_insertA]
      simp only [if_pos trivial, reduceIte, Option.getD_some]
      omega
    · have hb : (strTake v.publishedAt 10 == d) = false := by simpa using hd
      simp only [bumpDay, List.filter_cons, hb, Bool.false_eq_true, if_false]
      rw [lookupA_insertA]
      simp [hd]

theorem buildByDay_count (rows : List VideoRecord) (d : String) :
    (lookupA (buildByDay rows) d).getD 0 =
      (rows.filter (fun v => strTake v.publishedAt 10 == d)).length := by
  rw [buildByDay, bumpDay_fold_count d rows []]
  simp [lookupA]

/- ===== Stability of the insertion sort used to model the JS stable sort ===== -/

theorem filter_orderedInsert_pos {α : Type} (r : α → α → Prop) [DecidableRel r]
    (p : α → Bool) (x : α) (hx : p x = true)
    (hall : ∀ z, p z = true → r x z) :
    ∀ l : List α, (List.orderedInsert r x l).filter p = x :: l.filter p
  | [] => by simp [List.orderedInsert, hx]
  | y :: l => by
    simp only [List.orderedInsert]
    by_cases hr : r x y
    · simp [hr, List.filter_cons, hx]
    · have hy : p y = false := by
        cases hpy : p y
        · rfl
        · exact absurd (hall y hpy) hr
      simp only [hr, if_false, List.filter_cons, hy, Bool.false_eq_true]
      exact filter_orderedInsert_pos r p x hx hall l

theorem filter_orderedInsert_neg {α : Type} (r : α → α → Prop) [DecidableRel r]
    (p : α → Bool) (x : α) (hx : p x = false) :
    ∀ l : List α, (List.orderedInsert r x l).filter p = l.filter p
  | [] => by simp [List.orderedInsert, hx]
  | y :: l => by
    simp only [List.orderedInsert]
    by_cases hr : r x y
    · simp [hr, List.filter_cons, hx]
    · simp only [hr, if_false, List.filter_cons]
      cases hpy : p y
      · simp only [Bool.false_eq_true, if_false]
        exact filter_orderedInsert_neg r p x hx l
      · simp only [if_true]
        rw [filter_orderedInsert_neg r p x hx l]

theorem filter_insertionSort {α : Type} (r : α → α → Prop) [DecidableRel r]
    (p : α → Bool) (hp : ∀ a b, p a = true → p b = true → r a b) :
    ∀ l : List α, (List.insertionSort r l).filter p = l.filter p
  | [] => rfl
  | x :: l => by
    simp only [List.insertionSort]
    cases hx : p x
    · rw [filter_orderedInsert_neg r p x hx, filter_insertionSort r p hp l]
      simp [List.filter_cons, hx]
    · rw [filter_orderedInsert_pos r p x hx (fun z hz => hp x z hx hz),
        filter_insertionSort r p hp l]
      simp [List.filter_cons, hx]

/- ===== Batch slicing lemmas ===== -/

theorem sliceBatches_flatten (b : Nat) (hb : 1 ≤ b) :
    ∀ l : List String, (sliceBatches b l).flatten = l
  | [] => by simp [sliceBatches]
  | x :: xs => by
    rw [sliceBatches]
    simp only [List.flatten_cons]
    rw [sliceBatches_flatten b hb (xs.drop (b - 1))]
    cases b with
    | zero => omega
    | succ n =>
      simp only [List.take_succ_cons, Nat.add_sub_cancel, List.cons_append,
        List.cons.injEq, true_and]
      exact List.take_append_drop n xs
termination_by l => l.length
decreasing_by
  simp only [List.length_drop, List.length_cons]
  omega

theorem sliceBatches_chunk_le (b : Nat) :
    ∀ (l : List String) (c : List String), c ∈ sliceBatches b l → c.length ≤ b
  | [], c => by simp [sliceBatches]
  | x :: xs, c => by
    rw [sliceBatches]
    simp only [List.mem_cons]
    rintro (rfl | h)
    · simpa using List.length_take_le b (x :: xs)
    · exact sliceBatches_chunk_le b (xs.drop (b - 1)) c h
termination_by l => l.length
decreasing_by
  simp only [List.length_drop, List.length_cons]
  omega

theorem YT_VIDEOS_BATCH_pos (rawBatch : Int) : 1 ≤ YT_VIDEOS_BATCH rawBatch := by
  have h1 : (1 : Int) ≤ max 1 (min 50 rawBatch) := le_max_left _ _
  have := Int.toNat_le_toNat h1
  simpa [YT_VIDEOS_BATCH] using this

theorem YT_VIDEOS_BATCH_le (rawBatch : Int) : YT_VIDEOS_BATCH rawBatch ≤ 50 := by
  have h2 : max 1 (min 50 rawBatch) ≤ (50 : Int) :=
    max_le (by norm_num) (min_le_left _ _)
  have := Int.toNat_le_toNat h2
  simpa [YT_VIDEOS_BATCH] using this

/- ===== Claim theorems ===== -/

/-- Claim C6: for every input id sequence and every configured batch size,
including one larger than the ceiling such as 500, the detail fetcher
issues upstream batch calls of at most 50 ids each, and the batches
partition the input in order: their concatenation is exactly the input
list, so every input id lands in exactly one batch with no duplicates
introduced. -/
theorem claim6_batch_clamp (rawBatch : Int) (ids : List String)
    (api : List String → List VideoRecord) :
    ((sliceBatches (YT_VIDEOS_BATCH rawBatch) ids).all
      (fun c => c.length ≤ 50)) = true ∧
    (sliceBatches (YT_VIDEOS_BATCH rawBatch) ids).flatten = ids ∧
    fetchVideoDetailsRows api (YT_VIDEOS_BATCH rawBatch) ids =
      ((sliceBatches (YT_VIDEOS_BATCH rawBatch) ids).map api).flatten := by
  refine ⟨?_, ?_, rfl⟩
  · rw [List.all_eq_true]
    intro c hc
    have h1 := sliceBatches_chunk_le (YT_VIDEOS_BATCH rawBatch) ids c hc
    have h2 := YT_VIDEOS_BATCH_le rawBatch
    simpa using le_trans h1 h2
  · exact sliceBatches_flatten _ (YT_VIDEOS_BATCH_pos rawBatch) ids

/-- Claim C8: an input that matches the canonical channel-id shape is
returned unchanged with zero search calls; any other input is searched for
exactly once, with a leading at-sign stripped and whitespace trimmed, and
resolution fails when the search yields no candidate id. -/
theorem claim8_resolver_short_circuit (s : String)
    (search : String → Option String) :
    (isCanonicalChannelId s = true →
      resolveToChannelId s search = (Except.ok s, 0)) ∧
    (isCanonicalChannelId s = false →
      (resolveToChannelId s search).2 = 1 ∧
      (search (trimStr (stripAt s)) = none →
        resolveToChannelId s search =
          (Except.error "cannot resolve channelId", 1))) := by
  constructor
  · intro h
    simp [resolveToChannelId, h]
  · intro h
    constructor
    · simp only [resolveToChannelId, h, Bool.false_eq_true, if_false]
      cases hs : search (trimStr (stripAt s)) with
      | none => rfl
      | some id =>
        by_cases hid : (id == "") = true <;> simp [hid]
    · intro hn
      simp [resolveToChannelId, h, hn]

/-- Witness for claim C8 at concrete inputs: a canonical id comes back
unchanged with zero search calls. -/
theorem claim8_witness :
    isCanonicalChannelId "UCabcdefghijklmnopqrstuv" = true ∧
    resolveToChannelId "UCabcdefghijklmnopqrstuv" (fun _ => none) =
      (Except.ok "UCabcdefghijklmnopqrstuv", 0) :=
  ⟨by decide,
    (claim8_resolver_short_circuit "UCabcdefghijklmnopqrstuv" (fun _ => none)).1
      (by decide)⟩

/-- Claim C9: when the first-choice provider succeeds no fallback call is
made; when it fails, exactly one fallback attempt to the other provider is
made and its outcome, the fallback text on success or the error on failure,
is what reaches the caller. -/
theorem claim9_provider_fallback (gem oai : Except String String) :
    (∀ t, gem = Except.ok t →
      buildInsightText Provider.gemini gem oai =
        { result := Except.ok t, geminiCalls := 1, openaiCalls := 0 }) ∧
    (∀ e, gem = Except.error e →
      buildInsightText Provider.gemini gem oai =
        { result := oai, geminiCalls := 1, openaiCalls := 1 }) ∧
    (∀ t, oai = Except.ok t →
      buildInsightText Provider.openai gem oai =
        { result := Except.ok t, geminiCalls := 0, openaiCalls := 1 }) ∧
    (∀ e, oai = Except.error e →
      buildInsightText Provider.openai gem oai =
        { result := gem, geminiCalls := 1, openaiCalls := 1 }) := by
  refine ⟨?_, ?_, ?_, ?_⟩
  · rintro t rfl
    rfl
  · rintro e rfl
    rfl
  · rintro t rfl
    rfl
  · rintro e rfl
    rfl

/-- Witness for claim C9 at concrete outcomes: first provider fails, the
fallback succeeds and its text is returned after exactly one call to each
provider. -/
theorem claim9_witness :
    buildInsightText Provider.gemini (Except.error "rate limited")
        (Except.ok "fallback text") =
      { result := Except.ok "fallback text", geminiCalls := 1, openaiCalls := 1 } :=
  (claim9_provider_fallback (Except.error "rate limited")
    (Except.ok "fallback text")).2.1 "rate limited" rfl

/-- Claim C10: for a channel id with no entry in the store, the metrics
computation returns the empty result without failing, and the route leaves
the store untouched. -/
theorem claim10_missing_channel (db : Store) (channelId : String)
    (cutoff : String) (h : lookupA db.channels channelId = none) :
    metricsByHandleRoute db channelId cutoff =
      ({ byDay := [], rows := [], top := [], total := 0 }, db) := by
  simp [metricsByHandleRoute, makeMetricsFromChannel, h]

/-- Witness for claim C10 at a concrete empty store. -/
theorem claim10_witness :
    lookupA (Store.mk []).channels "UCabcdefghijklmnopqrstuv" = none ∧
    metricsByHandleRoute (Store.mk []) "UCabcdefghijklmnopqrstuv"
        "2025-07-13T00:00:00.000Z" =
      ({ byDay := [], rows := [], top := [], total := 0 }, Store.mk []) :=
  ⟨rfl, claim10_missing_channel _ _ _ rfl⟩

/- ===== Ingest lemmas ===== -/

theorem ingest_of_walk_empty (db : Store) (channelId : String)
    (feed : List (List FeedItem)) (since : Option String) (backfill : Bool)
    (api : List String → List VideoRecord) (batch maxNew : Nat)
    (metaFetch : Except String ChannelMeta)
    (h : walkFlat
      { sinceISO := since,
        lastSeenVideoId :=
          ((lookupA db.channels channelId).getD emptyChannelState).lastSeenVideoId,
        backfill := backfill }
      maxNew feed.flatten [] = []) :
    ingest db channelId feed since backfill api batch maxNew metaFetch =
      { store := db, saved := false, added := 0 } := by
  simp only [ingest, listNewVideoIds, walkPages_eq_walkFlat, h]
  simp

/-- After a non-degenerate incremental ingestion the stored cursor id is the
id of the first truthy item of the feed. -/
theorem ingest_incremental_cursor (db : Store) (channelId : String)
    (feed : List (List FeedItem)) (since : Option String)
    (api : List String → List VideoRecord) (batch maxNew : Nat)
    (metaFetch : Except String ChannelMeta)
    (h : walkFlat
      { sinceISO := since,
        lastSeenVideoId :=
          ((lookupA db.channels channelId).getD emptyChannelState).lastSeenVideoId,
        backfill := false }
      maxNew feed.flatten [] ≠ []) :
    ∃ c, firstTruthyId feed.flatten = some c ∧
      ((lookupA
          (ingest db channelId feed since false api batch maxNew metaFetch).store.channels
          channelId).getD emptyChannelState).lastSeenVideoId = some c := by
  obtain ⟨c, pub, hf, hhead⟩ := walkFlat_head _ maxNew feed.flatten h
  refine ⟨c, hf, ?_⟩
  have hcne := firstTruthyId_ne_empty feed.flatten c hf
  simp only [ingest, listNewVideoIds, walkPages_eq_walkFlat]
  have hne : ((walkFlat
      { sinceISO := since,
        lastSeenVideoId :=
          ((lookupA db.channels channelId).getD emptyChannelState).lastSeenVideoId,
        backfill := false }
      maxNew feed.flatten []).reverse.map (fun x => x.id)).length ≠ 0 := by
    simp only [ne_eq, List.length_map, List.length_reverse, List.length_eq_zero]
    exact h
  simp only [beq_iff_eq, hne, if_false]
  have hlast : (walkFlat
      { sinceISO := since,
        lastSeenVideoId :=
          ((lookupA db.channels channelId).getD emptyChannelState).lastSeenVideoId,
        backfill := false }
      maxNew feed.flatten []).reverse.getLast? = some ⟨c, pub⟩ := by
    rw [List.getLast?_reverse]
    exact hhead
  rw [hlast, lookupA_insertA_self]
  simp only [Option.getD_some]
  split
  next hemp => exact absurd hemp (by simp)
  next hemp =>
    have hcp : ¬ c = "" := by simpa using hcne
    simp [apply_ite (fun ch : ChannelState => ch.lastSeenVideoId), hcp, hcne]

/-- Claim C2: a backfill ingestion run never changes the stored cursor pair
lastSeenVideoId / lastPublishedAt, whatever it adds to the videos map, and
the only other store-writing route, resolve, preserves the pair as well:
only incremental ingestion can move the cursor. -/
theorem claim2_backfill_non_interference (db : Store) (channelId : String)
    (feed : List (List FeedItem)) (since : Option String)
    (api : List String → List VideoRecord) (batch maxNew : Nat)
    (metaFetch : Except String ChannelMeta)
    (fresh : ChannelMeta → Bool) (fetched : ChannelMeta) :
    cursorOf (ingest db channelId feed since true api batch maxNew metaFetch).store
        channelId =
      cursorOf db channelId ∧
    cursorOf (resolveRoute db channelId fresh fetched).1 channelId =
      cursorOf db channelId := by
  constructor
  · simp only [ingest, listNewVideoIds]
    split
    · rfl
    · simp only [cursorOf, lookupA_insertA_self, Option.getD_some]
      simp [apply_ite (fun ch : ChannelState => ch.lastSeenVideoId),
        apply_ite (fun ch : ChannelState => ch.lastPublishedAt), Prod.ext_iff]
  · simp only [resolveRoute, cursorOf, lookupA_insertA_self, Option.getD_some]

/-- Claim C3: running incremental ingestion twice in succession against the
same upstream feed gives added 0 on the second run, leaves the store, and
with it the cursor pair, exactly as the first run left it, and performs no
save: the zero-candidate early return fires before any store mutation. -/
theorem claim3_incremental_idempotent (db : Store) (channelId : String)
    (feed : List (List FeedItem)) (since : Option String)
    (api : List String → List VideoRecord) (batch maxNew : Nat)
    (metaFetch : Except String ChannelMeta) :
    (ingest (ingest db channelId feed since false api batch maxNew metaFetch).store
        channelId feed since false api batch maxNew metaFetch).added = 0 ∧
    (ingest (ingest db channelId feed since false api batch maxNew metaFetch).store
        channelId feed since false api batch maxNew metaFetch).store =
      (ingest db channelId feed since false api batch maxNew metaFetch).store ∧
    (ingest (ingest db channelId feed since false api batch maxNew metaFetch).store
        channelId feed since false api batch maxNew metaFetch).saved = false := by
  by_cases h : walkFlat
      { sinceISO := since,
        lastSeenVideoId :=
          ((lookupA db.channels channelId).getD emptyChannelState).lastSeenVideoId,
        backfill := false }
      maxNew feed.flatten [] = []
  · have he := ingest_of_walk_empty db channelId feed since false api batch maxNew
      metaFetch h
    simp [he]
  · obtain ⟨c, hf, hcur⟩ :=
      ingest_incremental_cursor db channelId feed since api batch maxNew metaFetch h
    have hcne := firstTruthyId_ne_empty feed.flatten c hf
    have hhit : cursorHit
        { sinceISO := since, lastSeenVideoId := some c, backfill := false } c = true := by
      simp [cursorHit, hcne]
    have hwalk2 : walkFlat
        { sinceISO := since, lastSeenVideoId := some c, backfill := false }
        maxNew feed.flatten [] = [] :=
      walkFlat_cursor_first _ maxNew feed.flatten [] c hf hhit
    have he2 := ingest_of_walk_empty
      (ingest db channelId feed since false api batch maxNew metaFetch).store
      channelId feed since false api batch maxNew metaFetch
      (by rw [hcur]; exact hwalk2)
    rw [he2]
    exact ⟨rfl, rfl, rfl⟩

/-- Claim C1: in incremental mode with cursor X sitting at 1-based position
k of the feed, the walker returns exactly the k-1 items preceding X, in
oldest-first order, the reverse of the newest-first prefix, and X itself is
never among them. Stated here with the preceding prefix P of length k-1,
under the scenario side conditions: no date cutoff, every preceding item
carries a truthy id different from X, and the record cap maxNew is not
smaller than k-1. -/
theorem claim1_cursor_exclusion (pages : List (List FeedItem))
    (P rest : List FeedItem) (x : FeedItem) (X : String) (maxNew : Nat)
    (hflat : pages.flatten = P ++ x :: rest)
    (hx : x.videoId = some X)
    (hX : (X == "") = false)
    (hP : ∀ it ∈ P,
      pushableB { sinceISO := none, lastSeenVideoId := some X, backfill := false }
        it = true)
    (hlen : P.length ≤ maxNew) :
    listNewVideoIds pages
        { sinceISO := none, lastSeenVideoId := some X, backfill := false } maxNew =
      (P.map mkOut).reverse ∧
    ∀ o ∈ listNewVideoIds pages
        { sinceISO := none, lastSeenVideoId := some X, backfill := false } maxNew,
      ¬ o.id = X := by
  have hcur : cursorHit
      { sinceISO := none, lastSeenVideoId := some X, backfill := false } X = true := by
    simp [cursorHit, hX]
  have hmain : listNewVideoIds pages
      { sinceISO := none, lastSeenVideoId := some X, backfill := false } maxNew =
      (P.map mkOut).reverse := by
    rw [listNewVideoIds, walkPages_eq_walkFlat, hflat,
      walkFlat_push_prefix _ maxNew P [] x rest X hP (by simpa using hlen) hx hcur]
    simp
  refine ⟨hmain, ?_⟩
  intro o ho hoX
  rw [hmain, List.mem_reverse] at ho
  obtain ⟨it, hit, rfl⟩ := List.mem_map.mp ho
  obtain ⟨id, hid, hne, hnc, hnk⟩ := (pushableB_iff _ it).mp (hP it hit)
  have hidX : id = X := by simpa [mkOut, hid] using hoX
  rw [hidX, hcur] at hnc
  cases hnc

/-- A concrete four-item feed for the claim C1 witness: the cursor id vidX
sits at position 3, preceded by vidA and vidB. -/
def c1ItemA : FeedItem :=
  { videoId := some "vidA", videoPublishedAt := some "2025-09-03T00:00:00.000Z" }

def c1ItemB : FeedItem :=
  { videoId := some "vidB", videoPublishedAt := some "2025-09-02T00:00:00.000Z" }

def c1ItemX : FeedItem :=
  { videoId := some "vidX", videoPublishedAt := some "2025-09-01T00:00:00.000Z" }

def c1ItemC : FeedItem :=
  { videoId := some "vidC", videoPublishedAt := some "2025-08-31T00:00:00.000Z" }

/-- Witness for claim C1 at a concrete feed with the cursor at position 3
and the default record cap: the walker yields the two newer items,
oldest-first, and not the cursor item. -/
theorem claim1_witness :
    (∀ it ∈ [c1ItemA, c1ItemB],
      pushableB
        { sinceISO := none, lastSeenVideoId := some "vidX", backfill := false }
        it = true) ∧
    listNewVideoIds [[c1ItemA, c1ItemB, c1ItemX, c1ItemC]]
        { sinceISO := none, lastSeenVideoId := some "vidX", backfill := false }
        2000 =
      ([c1ItemA, c1ItemB].map mkOut).reverse :=
  ⟨by decide,
    (claim1_cursor_exclusion [[c1ItemA, c1ItemB, c1ItemX, c1ItemC]]
      [c1ItemA, c1ItemB] [c1ItemC] c1ItemX "vidX" 2000
      (by decide) (by decide) (by decide) (by decide) (by decide)).1⟩

/-- Claim C4 as amended: on a newest-first feed of 120 truthy items walked
with record cap 100 and no cursor or cutoff, the walker returns exactly the
first 100 feed items reversed, so 100 items oldest-first; the item that
made the buffer reach the cap, the 100th item from the feed start, is
included and is the FIRST element of the oldest-first result, while the
100th element of the result is the feed's newest, first, item. -/
theorem claim4_record_cap_amended (pages : List (List FeedItem))
    (hlen : pages.flatten.length = 120)
    (hall : ∀ it ∈ pages.flatten,
      pushableB { sinceISO := none, lastSeenVideoId := none, backfill := false }
        it = true) :
    listNewVideoIds pages
        { sinceISO := none, lastSeenVideoId := none, backfill := false } 100 =
      ((pages.flatten.take 100).map mkOut).reverse ∧
    (listNewVideoIds pages
        { sinceISO := none, lastSeenVideoId := none, backfill := false } 100).length
      = 100 ∧
    (listNewVideoIds pages
        { sinceISO := none, lastSeenVideoId := none, backfill := false } 100)[0]?
      = (pages.flatten[99]?).map mkOut ∧
    (listNewVideoIds pages
        { sinceISO := none, lastSeenVideoId := none, backfill := false } 100)[99]?
      = (pages.flatten[0]?).map mkOut := by
  have hmain : listNewVideoIds pages
      { sinceISO := none, lastSeenVideoId := none, backfill := false } 100 =
      ((pages.flatten.take 100).map mkOut).reverse := by
    rw [listNewVideoIds, walkPages_eq_walkFlat,
      walkFlat_cap _ 100 pages.flatten [] hall (by norm_num) (by simp [hlen])]
    simp
  have hlen100 : ((pages.flatten.take 100).map mkOut).length = 100 := by
    rw [List.length_map, List.length_take, hlen]
    omega
  refine ⟨hmain, ?_, ?_, ?_⟩
  · rw [hmain]
    simpa using hlen100
  · rw [hmain, ← List.head?_eq_getElem?, List.head?_reverse,
      List.getLast?_eq_getElem?, hlen100, List.getElem?_map, List.getElem?_take]
    simp
  · rw [hmain]
    have h99 : (99 : Nat) < ((pages.flatten.take 100).map mkOut).length := by
      rw [hlen100]
      norm_num
    rw [List.getElem?_reverse h99, hlen100, List.getElem?_map, List.getElem?_take]
    simp

/-- A synthetic newest-first feed of 120 distinct items, ids v0 .. v119,
v0 being the newest (the first the upstream API serves). -/
def c4Feed : List FeedItem :=
  (List.range 120).map (fun i =>
    { videoId := some ("v" ++ toString i),
      videoPublishedAt := some "2025-06-01T00:00:00.000Z" })

set_option maxRecDepth 100000 in
/-- Counterexample to claim C4 as stated: on the synthetic 120-item feed
with record cap 100, the 100th element of the oldest-first result is the
feed's FIRST item v0, not the 100th item v99 the claim names. -/
theorem claim4_counterexample :
    ((listNewVideoIds [c4Feed]
        { sinceISO := none, lastSeenVideoId := none, backfill := false }
        100)[99]?).map (fun o => o.id) = some "v0" ∧
    (c4Feed[99]?).map (fun it => it.videoId) = some (some "v99") ∧
    ¬ ((listNewVideoIds [c4Feed]
        { sinceISO := none, lastSeenVideoId := none, backfill := false }
        100)[99]? = (c4Feed[99]?).map mkOut) := by
  decide

set_option maxRecDepth 100000 in
/-- Witness for the amended claim C4 at the synthetic feed. -/
theorem claim4_witness :
    ([c4Feed] : List (List FeedItem)).flatten.length = 120 ∧
    listNewVideoIds [c4Feed]
        { sinceISO := none, lastSeenVideoId := none, backfill := false } 100 =
      ((([c4Feed] : List (List FeedItem)).flatten.take 100).map mkOut).reverse :=
  ⟨by decide,
    (claim4_record_cap_amended [c4Feed] (by decide) (by decide)).1⟩

/- ===== Metrics pipeline lemmas ===== -/

theorem rowFilterSort_mem (rows : List VideoRecord) (cutoff : String)
    (v : VideoRecord) :
    v ∈ rowFilterSort rows cutoff ↔
      (v ∈ rows ∧ strLt cutoff v.publishedAt = true) := by
  rw [rowFilterSort, List.mem_insertionSort, List.mem_filter]

theorem rowFilterSort_sorted (rows : List VideoRecord) (cutoff : String) :
    List.Pairwise (fun a b => strLe a.publishedAt b.publishedAt = true)
      (rowFilterSort rows cutoff) := by
  haveI : IsTotal VideoRecord
      (fun a b => strLe a.publishedAt b.publishedAt = true) :=
    ⟨fun a b => strLe_total a.publishedAt b.publishedAt⟩
  haveI : IsTrans VideoRecord
      (fun a b => strLe a.publishedAt b.publishedAt = true) :=
    ⟨fun _ _ _ h1 h2 => strLe_trans h1 h2⟩
  exact List.sorted_insertionSort _ _

theorem topByViews_length (rows : List VideoRecord) :
    (topByViews rows).length ≤ 10 := by
  rw [topByViews]
  simpa using List.length_take_le 10 _

theorem topByViews_subset (rows : List VideoRecord) (v : VideoRecord)
    (hv : v ∈ topByViews rows) : v ∈ rows := by
  rw [topByViews] at hv
  exact (List.mem_insertionSort _).mp ((List.take_sublist 10 _).subset hv)

theorem topByViews_sorted (rows : List VideoRecord) :
    List.Pairwise (fun a b => b.views ≤ a.views) (topByViews rows) := by
  haveI : IsTotal VideoRecord (fun a b => b.views ≤ a.views) :=
    ⟨fun a b => le_total b.views a.views⟩
  haveI : IsTrans VideoRecord (fun a b => b.views ≤ a.views) :=
    ⟨fun _ _ _ h1 h2 => le_trans h2 h1⟩
  exact (List.sorted_insertionSort _ rows).sublist (List.take_sublist 10 _)

theorem sortByViews_stable (rows : List VideoRecord) (k : Nat) :
    (List.insertionSort (fun a b => b.views ≤ a.views) rows).filter
        (fun v => v.views == k) =
      rows.filter (fun v => v.views == k) := by
  apply filter_insertionSort
  intro a b ha hb
  have ha2 : a.views = k := by simpa using ha
  have hb2 : b.views = k := by simpa using hb
  rw [ha2, hb2]

/-- Claim C5 as amended: for a stored channel, the metrics computation
keeps exactly the rows whose publishedAt is strictly after the pre-rendered
cutoff, the local start of day of now minus days, with no upper bound at
now; it sorts them ascending by publishedAt; byDay counts rows by the UTC
calendar-day prefix of the timestamp; top is at most ten rows drawn from
the kept rows, descending by views with ties kept in row order by the
stable sort; total is the kept row count; and a row at or before the
cutoff appears in neither rows nor top. -/
theorem claim5_metrics_amended (db : Store) (channelId : String)
    (cutoff : String) (ch : ChannelState)
    (h : lookupA db.channels channelId = some ch) :
    (∀ v, v ∈ (makeMetricsFromChannel db channelId cutoff).rows ↔
      (v ∈ ch.videos.map (fun p => p.2) ∧ strLt cutoff v.publishedAt = true)) ∧
    List.Pairwise (fun a b => strLe a.publishedAt b.publishedAt = true)
      (makeMetricsFromChannel db channelId cutoff).rows ∧
    (makeMetricsFromChannel db channelId cutoff).total =
      (makeMetricsFromChannel db channelId cutoff).rows.length ∧
    (∀ d, (lookupA (makeMetricsFromChannel db channelId cutoff).byDay d).getD 0 =
      ((makeMetricsFromChannel db channelId cutoff).rows.filter
        (fun v => strTake v.publishedAt 10 == d)).length) ∧
    (makeMetricsFromChannel db channelId cutoff).top.length ≤ 10 ∧
    (∀ v ∈ (makeMetricsFromChannel db channelId cutoff).top,
      v ∈ (makeMetricsFromChannel db channelId cutoff).rows) ∧
    List.Pairwise (fun a b => b.views ≤ a.views)
      (makeMetricsFromChannel db channelId cutoff).top ∧
    (∀ k, (List.insertionSort (fun a b => b.views ≤ a.views)
        (makeMetricsFromChannel db channelId cutoff).rows).filter
          (fun v => v.views == k) =
      (makeMetricsFromChannel db channelId cutoff).rows.filter
        (fun v => v.views == k)) ∧
    (∀ v ∈ ch.videos.map (fun p => p.2), strLt cutoff v.publishedAt = false →
      v ∉ (makeMetricsFromChannel db channelId cutoff).rows ∧
      v ∉ (makeMetricsFromChannel db channelId cutoff).top) := by
  have hm : makeMetricsFromChannel db channelId cutoff =
      { byDay := buildByDay (rowFilterSort (ch.videos.map (fun p => p.2)) cutoff),
        rows := rowFilterSort (ch.videos.map (fun p => p.2)) cutoff,
        top := topByViews (rowFilterSort (ch.videos.map (fun p => p.2)) cutoff),
        total := (rowFilterSort (ch.videos.map (fun p => p.2)) cutoff).length } := by
    rw [makeMetricsFromChannel, h]
  rw [hm]
  refine ⟨?_, ?_, rfl, ?_, ?_, ?_, ?_, ?_, ?_⟩
  · exact fun v => rowFilterSort_mem _ cutoff v
  · exact rowFilterSort_sorted _ cutoff
  · exact fun d => buildByDay_count _ d
  · exact topByViews_length _
  · exact fun v hv => topByViews_subset _ v hv
  · exact topByViews_sorted _
  · exact fun k => sortByViews_stable _ k
  · intro v hv hout
    constructor
    · intro hmem
      have := ((rowFilterSort_mem _ cutoff v).mp hmem).2
      rw [hout] at this
      cases this
    · intro hmem
      have := ((rowFilterSort_mem _ cutoff v).mp (topByViews_subset _ v hmem)).2
      rw [hout] at this
      cases this

/-- Follows the words of spec sections 4.5 and 8: membership of a publish
timestamp in the recency window from now minus days, inclusive, up to but
excluding now. Stated only to compare the spec window against the filter
the code applies. -/
def specInWindow (lowerBound nowTs pub : String) : Bool :=
  strLe lowerBound pub && strLt pub nowTs

/-- A stored row published after now: outside the spec window yet kept by
the code filter. -/
def c5VideoFuture : VideoRecord :=
  { videoId := "futurevid", title := "future", description := "",
    publishedAt := "2026-01-12T00:00:00.000Z", channelId := none,
    channelTitle := none, duration := none, views := 5, likes := 1,
    comments := 0 }

/-- A stored row published between the start of the cutoff day and now
minus days: outside the spec window yet kept by the code filter. -/
def c5VideoEarly : VideoRecord :=
  { videoId := "earlyvid", title := "early", description := "",
    publishedAt := "2026-01-09T06:00:00.000Z", channelId := none,
    channelTitle := none, duration := none, views := 3, likes := 0,
    comments := 0 }

/-- The stored channel for the claim C5 counterexample and witness. -/
def c5Channel : ChannelState :=
  { videos := [("futurevid", c5VideoFuture), ("earlyvid", c5VideoEarly)],
    lastSeenVideoId := none, lastPublishedAt := none, meta := none }

/-- The store for the claim C5 counterexample and witness. -/
def c5Store : Store := { channels := [("UCc5c5c5c5c5c5c5c5c5c5c5", c5Channel)] }

/-- Counterexample to claim C5 as stated: with now 2026-01-10T12:00 and
days = 1, so spec window [2026-01-09T12:00, 2026-01-10T12:00) and code
cutoff startOf(day) = 2026-01-09T00:00, both stored rows lie outside the
claimed window [now - days, now), the future row beyond its upper end and
the early row below its lower end, yet both appear in rows and are counted
in total. -/
theorem claim5_counterexample :
    specInWindow "2026-01-09T12:00:00.000Z" "2026-01-10T12:00:00.000Z"
        c5VideoFuture.publishedAt = false ∧
    specInWindow "2026-01-09T12:00:00.000Z" "2026-01-10T12:00:00.000Z"
        c5VideoEarly.publishedAt = false ∧
    c5VideoFuture ∈ (makeMetricsFromChannel c5Store "UCc5c5c5c5c5c5c5c5c5c5c5"
        "2026-01-09T00:00:00.000Z").rows ∧
    c5VideoEarly ∈ (makeMetricsFromChannel c5Store "UCc5c5c5c5c5c5c5c5c5c5c5"
        "2026-01-09T00:00:00.000Z").rows ∧
    (makeMetricsFromChannel c5Store "UCc5c5c5c5c5c5c5c5c5c5c5"
        "2026-01-09T00:00:00.000Z").total = 2 := by
  decide

/-- Witness for the amended claim C5 at the concrete store. -/
theorem claim5_witness :
    lookupA c5Store.channels "UCc5c5c5c5c5c5c5c5c5c5c5" = some c5Channel ∧
    (makeMetricsFromChannel c5Store "UCc5c5c5c5c5c5c5c5c5c5c5"
        "2026-01-09T00:00:00.000Z").total =
      (makeMetricsFromChannel c5Store "UCc5c5c5c5c5c5c5c5c5c5c5"
        "2026-01-09T00:00:00.000Z").rows.length :=
  ⟨by decide,
    (claim5_metrics_amended c5Store "UCc5c5c5c5c5c5c5c5c5c5c5"
      "2026-01-09T00:00:00.000Z" c5Channel (by decide)).2.2.1⟩

/-- Counterexample to claim C7 as stated: the response object of the
current metrics-by-query route carries only query, byDay, rows, top and
total; no topChannels property is computed or sent. -/
theorem claim7_counterexample :
    ¬ ("topChannels" ∈ metricsByQueryResponseKeys) := by
  decide

/-- Claim C7 as amended: the keyword-search response consists of the query
echo plus the byDay, rows, top and total fields computed by the same
filter, sort, bucket and top pipeline as the channel metrics; no
topChannels aggregation exists in the current route (the grouping described
by the spec, modelled by specTopChannels, is computed nowhere). -/
theorem claim7_query_metrics_amended (q : String) (rows : List VideoRecord)
    (publishedAfter : String) (hq : (q == "") = false) :
    (metricsByQuery q rows publishedAfter).query = some q ∧
    (∀ v, v ∈ (metricsByQuery q rows publishedAfter).rows ↔
      (v ∈ rows ∧ strLt publishedAfter v.publishedAt = true)) ∧
    List.Pairwise (fun a b => strLe a.publishedAt b.publishedAt = true)
      (metricsByQuery q rows publishedAfter).rows ∧
    (metricsByQuery q rows publishedAfter).total =
      (metricsByQuery q rows publishedAfter).rows.length ∧
    (∀ d, (lookupA (metricsByQuery q rows publishedAfter).byDay d).getD 0 =
      ((metricsByQuery q rows publishedAfter).rows.filter
        (fun v => strTake v.publishedAt 10 == d)).length) ∧
    (metricsByQuery q rows publishedAfter).top.length ≤ 10 ∧
    (∀ v ∈ (metricsByQuery q rows publishedAfter).top,
      v ∈ (metricsByQuery q rows publishedAfter).rows) ∧
    List.Pairwise (fun a b => b.views ≤ a.views)
      (metricsByQuery q rows publishedAfter).top ∧
    ¬ ("topChannels" ∈ metricsByQueryResponseKeys) := by
  have hm : metricsByQuery q rows publishedAfter =
      { query := some q,
        byDay := buildByDay (rowFilterSort rows publishedAfter),
        rows := rowFilterSort rows publishedAfter,
        top := topByViews (rowFilterSort rows publishedAfter),
        total := (rowFilterSort rows publishedAfter).length } := by
    rw [metricsByQuery]
    simp [hq]
  rw [hm]
  refine ⟨rfl, ?_, ?_, rfl, ?_, ?_, ?_, ?_, ?_⟩
  · exact fun v => rowFilterSort_mem _ publishedAfter v
  · exact rowFilterSort_sorted _ publishedAfter
  · exact fun d => buildByDay_count _ d
  · exact topByViews_length _
  · exact fun v hv => topByViews_subset _ v hv
  · exact topByViews_sorted _
  · decide

/-- Witness for the amended claim C7 at a concrete query and row set. -/
theorem claim7_witness :
    (("lg aircon" : String) == "") = false ∧
    (metricsByQuery "lg aircon" [c5VideoFuture] "2026-01-09T00:00:00.000Z").query
      = some "lg aircon" :=
  ⟨by decide,
    (claim7_query_metrics_amended "lg aircon" [c5VideoFuture]
      "2026-01-09T00:00:00.000Z" (by decide)).1⟩
